import Mathlib

/-!
Verification of the Customer-Agent message ingress pipeline.

The definitions below are shallow embeddings of the Python sources:
`bridge/context.py`, `Channel/pinduoduo/pdd_chnnel.py`,
`Channel/pinduoduo/pdd_message.py`, `Message/message_queue.py`,
`Message/message_consumer.py`, `Message/message_handler.py`,
`Channel/pinduoduo/utils/API/base_request.py`,
`Channel/pinduoduo/utils/API/Set_up_online.py`,
`ui/auto_reply_ui.py` and `Agent/CozeAgent/bot.py`.
External effects (HTTP, database, the Coze service, wall-clock time) are
modelled as explicit oracle parameters; the embedded functions record the
calls they would make as event lists so ordering properties can be stated.
-/

namespace CustomerAgent

/-- Message kinds, from `bridge/context.py` (`ContextType`). -/
inductive ContextType where
  | text
  | image
  | video
  | emotion
  | goodsCard
  | goodsInquiry
  | goodsSpec
  | orderInfo
  | systemStatus
  | mallSystemMsg
  | systemHint
  | systemBiz
  | mallCs
  | withdraw
  | auth
  | transfer
deriving DecidableEq, Repr

/-- Channel kinds, from `bridge/context.py` (`ChannelType`); only the
Pinduoduo channel is exercised by the pipeline. -/
inductive ChannelType where
  | pinduoduo
  | jingdong
  | taobao
  | douyin
  | kuaishou
deriving DecidableEq, Repr

/-- Python message content as seen by the handlers: a string, a dict-like
object, or `None`. -/
inductive ContentVal where
  | str (s : String)
  | obj
  | none
deriving DecidableEq, Repr

/-- The slice of `bridge/context.py`'s `Context` that the pipeline reads:
the kind, the content, and the kwargs fields used for routing and replies. -/
structure Context where
  type : ContextType
  content : ContentVal
  fromUid : String
  shopId : String
  userId : String
  channelType : ChannelType
deriving DecidableEq, Repr

/-! ## Routing policy (`PDDChannel._should_process_immediately` /
`_should_queue_message` / `_process_websocket_message`,
`Channel/pinduoduo/pdd_chnnel.py`) -/

/-- Embeds `PDDChannel._should_process_immediately`: the set literal
`immediate_types` in the source. -/
def shouldProcessImmediately (t : ContextType) : Bool :=
  match t with
  | .systemStatus => true
  | .auth => true
  | .withdraw => true
  | .systemHint => true
  | .mallCs => true
  | .transfer => true
  | _ => false

/-- Embeds `PDDChannel._should_queue_message`: the set literal `queue_types`
in the source. -/
def shouldQueueMessage (t : ContextType) : Bool :=
  match t with
  | .text => true
  | .image => true
  | .video => true
  | .emotion => true
  | .goodsInquiry => true
  | .orderInfo => true
  | .goodsCard => true
  | .goodsSpec => true
  | _ => false

/-- What `_process_websocket_message` does with a decoded event. -/
inductive Route where
  | immediate
  | queued
  | dropped
deriving DecidableEq, Repr

/-- The if/elif/else in `_process_websocket_message`: immediate kinds are
handled inline, queued kinds go to the account queue, anything else is
logged and dropped. -/
def routeMessage (t : ContextType) : Route :=
  if shouldProcessImmediately t then Route.immediate
  else if shouldQueueMessage t then Route.queued
  else Route.dropped

/-! ## Account message queue (`MessageQueue`, `Message/message_queue.py`)

The queue is a `collections.deque(maxlen=max_size)` guarded by a condition
variable; `put` appends (a full deque silently discards its leftmost
element), `get` pops from the left. -/

/-- The wrapper `put` builds around a context (`message_wrapper` in the
source); `id` stands for the generated uuid. -/
structure MessageWrapper where
  id : Nat
  context : Context
deriving DecidableEq, Repr

/-- Queue state: capacity, buffer (head = oldest), closed flag. -/
structure MessageQueue where
  maxSize : Nat
  buffer : List MessageWrapper
  closed : Bool
deriving DecidableEq, Repr

/-- Embeds `MessageQueue.__init__(max_size)`. -/
def MessageQueue.init (maxSize : Nat) : MessageQueue :=
  { maxSize := maxSize, buffer := [], closed := false }

/-- Error raised by `put` on a closed queue (`RuntimeError("消息队列已关闭")`). -/
inductive QueueError where
  | closed
deriving DecidableEq, Repr

/-- Embeds `MessageQueue.put`: fails if closed, otherwise wraps the context with a
fresh id and appends to the deque.  Appending to a `deque` that already
holds `maxlen` items silently discards the leftmost (oldest) item; the
producer is never blocked. -/
def MessageQueue.put (q : MessageQueue) (freshId : Nat) (c : Context) :
    Except QueueError (Nat × MessageQueue) :=
  if q.closed then Except.error QueueError.closed
  else
    let appended := q.buffer ++ [⟨freshId, c⟩]
    let buf := if q.maxSize < appended.length then appended.tail else appended
    Except.ok (freshId, { q with buffer := buf })

/-- Embeds `MessageQueue.get`: pops the leftmost wrapper; `none` when nothing is
available (timeout, or closed and drained). -/
def MessageQueue.get (q : MessageQueue) : Option MessageWrapper × MessageQueue :=
  match q.buffer with
  | [] => (Option.none, q)
  | w :: rest => (Option.some w, { q with buffer := rest })

/-- Embeds `MessageQueue.close`. -/
def MessageQueue.close (q : MessageQueue) : MessageQueue :=
  { q with closed := true }

/-- Operations a client can issue against one queue. -/
inductive QueueOp where
  | put (freshId : Nat) (c : Context)
  | get
  | close
deriving DecidableEq, Repr

/-- Run one operation, collecting any wrapper returned by `get`. -/
def MessageQueue.step (q : MessageQueue) (op : QueueOp) :
    MessageQueue × List MessageWrapper :=
  match op with
  | QueueOp.put i c =>
      match q.put i c with
      | Except.ok (_, q') => (q', [])
      | Except.error _ => (q, [])
  | QueueOp.get =>
      match q.get with
      | (Option.some w, q') => (q', [w])
      | (Option.none, q') => (q', [])
  | QueueOp.close => (q.close, [])

/-- Run a sequence of operations, collecting every wrapper any `get`
returned. -/
def MessageQueue.run (q : MessageQueue) : List QueueOp → MessageQueue × List MessageWrapper
  | [] => (q, [])
  | op :: ops =>
      let (q', out) := q.step op
      let (q'', outs) := q'.run ops
      (q'', out ++ outs)

/-! ## Sample contexts used by concrete counterexamples and witnesses -/

/-- A sample queued-kind context. -/
def ctxA : Context :=
  { type := ContextType.text, content := ContentVal.str "你好", fromUid := "U1",
    shopId := "S1", userId := "A1", channelType := ChannelType.pinduoduo }

/-- A second sample context. -/
def ctxB : Context :=
  { type := ContextType.text, content := ContentVal.str "在吗", fromUid := "U2",
    shopId := "S1", userId := "A1", channelType := ChannelType.pinduoduo }

/-- A third sample context. -/
def ctxC : Context :=
  { type := ContextType.image, content := ContentVal.str "http://img", fromUid := "U1",
    shopId := "S1", userId := "A1", channelType := ChannelType.pinduoduo }

/-! ## C1: routing policy -/

/-- C1 counterexample: the claim says `SystemBiz` and `MallSystemMsg` events
are handled immediately, but `_should_process_immediately` omits them and
`_should_queue_message` does not list them either, so
`_process_websocket_message` falls into its else branch and drops them. -/
theorem routing_systemBiz_mallSystemMsg_dropped :
    routeMessage ContextType.systemBiz = Route.dropped ∧
    routeMessage ContextType.mallSystemMsg = Route.dropped := by
  decide

/-- C1 (amended): events of kind Auth, Withdraw, SystemStatus, SystemHint,
MallCs and Transfer are handled immediately; Text, Image, Video, Emotion,
GoodsInquiry, OrderInfo, GoodsCard and GoodsSpec are enqueued; SystemBiz and
MallSystemMsg (like any unrecognized kind) are logged and dropped. -/
theorem routing_policy_amended :
    routeMessage ContextType.auth = Route.immediate ∧
    routeMessage ContextType.withdraw = Route.immediate ∧
    routeMessage ContextType.systemStatus = Route.immediate ∧
    routeMessage ContextType.systemHint = Route.immediate ∧
    routeMessage ContextType.mallCs = Route.immediate ∧
    routeMessage ContextType.transfer = Route.immediate ∧
    routeMessage ContextType.text = Route.queued ∧
    routeMessage ContextType.image = Route.queued ∧
    routeMessage ContextType.video = Route.queued ∧
    routeMessage ContextType.emotion = Route.queued ∧
    routeMessage ContextType.goodsInquiry = Route.queued ∧
    routeMessage ContextType.orderInfo = Route.queued ∧
    routeMessage ContextType.goodsCard = Route.queued ∧
    routeMessage ContextType.goodsSpec = Route.queued ∧
    routeMessage ContextType.systemBiz = Route.dropped ∧
    routeMessage ContextType.mallSystemMsg = Route.dropped := by
  decide

/-! ## C2 / C10: queue put semantics -/

/-- How `put` behaves on an open queue, as one equation. -/
theorem put_open_eq (q : MessageQueue) (i : Nat) (c : Context) (h : q.closed = false) :
    q.put i c = Except.ok (i, { q with buffer :=
      if q.maxSize < q.buffer.length + 1 then (q.buffer ++ [MessageWrapper.mk i c]).tail
      else q.buffer ++ [MessageWrapper.mk i c] }) := by
  simp [MessageQueue.put, h]

/-- C2 counterexample: on a full open queue (capacity 1 holding wrapper 0),
`put` does not block the producer — it succeeds with a fresh id and the
previously accepted wrapper 0 is silently discarded by the
`deque(maxlen=...)` append. -/
theorem put_on_full_queue_succeeds_and_evicts :
    MessageQueue.put { maxSize := 1, buffer := [⟨0, ctxA⟩], closed := false } 1 ctxB =
      Except.ok (1, { maxSize := 1, buffer := [⟨1, ctxB⟩], closed := false }) ∧
    (⟨0, ctxA⟩ : MessageWrapper) ∉
      (MessageQueue.buffer { maxSize := 1, buffer := [⟨1, ctxB⟩], closed := false }) := by
  refine ⟨rfl, ?_⟩
  decide

/-- C2 (amended): `put` on an open queue returns the fresh message id;
`put` on a closed queue fails with the Closed error; when the queue already
holds `max_size` items an open-queue `put` still succeeds and the oldest
buffered item is evicted (the producer never blocks). -/
theorem messageQueue_put_semantics (q : MessageQueue) (i : Nat) (c : Context) :
    (q.closed = true → q.put i c = Except.error QueueError.closed) ∧
    (q.closed = false → q.buffer.length < q.maxSize →
      q.put i c = Except.ok (i, { q with buffer := q.buffer ++ [MessageWrapper.mk i c] })) ∧
    (q.closed = false → q.buffer.length = q.maxSize →
      q.put i c = Except.ok (i, { q with buffer := (q.buffer ++ [MessageWrapper.mk i c]).tail })) := by
  refine ⟨?_, ?_, ?_⟩
  · intro h
    simp [MessageQueue.put, h]
  · intro h hlt
    rw [put_open_eq q i c h, if_neg (by omega)]
  · intro h heq
    rw [put_open_eq q i c h, if_pos (by omega)]

/-- Witness for `messageQueue_put_semantics` at a concrete queue. -/
theorem messageQueue_put_semantics_witness :
    MessageQueue.put { maxSize := 2, buffer := [⟨0, ctxA⟩], closed := false } 1 ctxB =
      Except.ok (1, { maxSize := 2, buffer := [⟨0, ctxA⟩, ⟨1, ctxB⟩], closed := false }) := by
  have h := (messageQueue_put_semantics
    { maxSize := 2, buffer := [⟨0, ctxA⟩], closed := false } 1 ctxB).2.1 rfl (by decide)
  simpa using h

/-- Well-formedness of a queue state: the buffer never exceeds the
configured capacity (what `deque(maxlen=max_size)` maintains). -/
def MessageQueue.Wf (q : MessageQueue) : Prop :=
  q.buffer.length ≤ q.maxSize

/-- One queue operation preserves capacity and the capacity bound. -/
theorem step_preserves_wf (q : MessageQueue) (op : QueueOp) (h : q.Wf) :
    (q.step op).1.Wf ∧ (q.step op).1.maxSize = q.maxSize := by
  cases op with
  | put i c =>
      by_cases hc : q.closed = true
      · have hp : q.put i c = Except.error QueueError.closed := by
          simp [MessageQueue.put, hc]
        simp only [MessageQueue.step, hp]
        exact ⟨h, by trivial⟩
      · have hc' : q.closed = false := by simpa using hc
        simp only [MessageQueue.step, put_open_eq q i c hc']
        by_cases hfull : q.maxSize < q.buffer.length + 1
        · simp only [if_pos hfull]
          refine ⟨?_, by trivial⟩
          simp only [MessageQueue.Wf, List.length_tail, List.length_append,
            List.length_cons, List.length_nil] at h ⊢
          omega
        · simp only [if_neg hfull]
          refine ⟨?_, by trivial⟩
          simp only [MessageQueue.Wf, List.length_append, List.length_cons,
            List.length_nil] at h ⊢
          omega
  | get =>
      cases hbuf : q.buffer with
      | nil =>
          simp only [MessageQueue.step, MessageQueue.get, hbuf]
          exact ⟨h, by trivial⟩
      | cons w rest =>
          simp only [MessageQueue.step, MessageQueue.get, hbuf]
          refine ⟨?_, by trivial⟩
          simp only [MessageQueue.Wf] at h ⊢
          rw [hbuf] at h
          simp only [List.length_cons] at h
          omega
  | close =>
      exact ⟨h, by trivial⟩

/-- Running any operation sequence preserves the capacity bound. -/
theorem run_preserves_wf (ops : List QueueOp) (q : MessageQueue) (h : q.Wf) :
    (q.run ops).1.Wf := by
  induction ops generalizing q with
  | nil => simpa [MessageQueue.run] using h
  | cons op ops ih =>
      simp only [MessageQueue.run]
      exact ih _ (step_preserves_wf q op h).1

/-- An id absent from the buffer and from all future put ids stays absent,
and is never emitted by a `get`. -/
theorem step_avoids_id (q : MessageQueue) (op : QueueOp) (n : Nat)
    (hbuf : ∀ w ∈ q.buffer, w.id ≠ n)
    (hop : ∀ j c, op = QueueOp.put j c → j ≠ n) :
    (∀ w ∈ (q.step op).1.buffer, w.id ≠ n) ∧ (∀ w ∈ (q.step op).2, w.id ≠ n) := by
  cases op with
  | put i c =>
      have hi : i ≠ n := hop i c rfl
      by_cases hc : q.closed = true
      · have hp : q.put i c = Except.error QueueError.closed := by
          simp [MessageQueue.put, hc]
        simp only [MessageQueue.step, hp]
        exact ⟨hbuf, by intro w hw; simp at hw⟩
      · have hc' : q.closed = false := by simpa using hc
        simp only [MessageQueue.step, put_open_eq q i c hc']
        constructor
        · intro w hw
          by_cases hfull : q.maxSize < q.buffer.length + 1
          · simp only [if_pos hfull] at hw
            have hmem : w ∈ q.buffer ++ [MessageWrapper.mk i c] := List.mem_of_mem_tail hw
            rcases List.mem_append.mp hmem with h1 | h1
            · exact hbuf w h1
            · simp at h1; subst h1; exact hi
          · simp only [if_neg hfull] at hw
            rcases List.mem_append.mp hw with h1 | h1
            · exact hbuf w h1
            · simp at h1; subst h1; exact hi
        · intro w hw; simp at hw
  | get =>
      cases hb : q.buffer with
      | nil =>
          simp only [MessageQueue.step, MessageQueue.get, hb]
          exact ⟨by intro w hw; simp at hw, by intro w hw; simp at hw⟩
      | cons v rest =>
          simp only [MessageQueue.step, MessageQueue.get, hb]
          constructor
          · intro w hw
            exact hbuf w (by rw [hb]; exact List.mem_cons_of_mem _ hw)
          · intro w hw
            simp only [List.mem_singleton] at hw
            subst hw
            exact hbuf w (by rw [hb]; exact List.mem_cons_self _ _)
  | close =>
      simp only [MessageQueue.step, MessageQueue.close]
      exact ⟨hbuf, by intro w hw; simp at hw⟩

/-- Over a whole run: an id absent from the buffer whose value is never
re-used by a later `put` is never returned by any `get`. -/
theorem run_avoids_id (ops : List QueueOp) (q : MessageQueue) (n : Nat)
    (hbuf : ∀ w ∈ q.buffer, w.id ≠ n)
    (hops : ∀ j c, QueueOp.put j c ∈ ops → j ≠ n) :
    ∀ w ∈ (q.run ops).2, w.id ≠ n := by
  induction ops generalizing q with
  | nil => intro w hw; simp [MessageQueue.run] at hw
  | cons op ops ih =>
      intro w hw
      simp only [MessageQueue.run] at hw
      have hstep := step_avoids_id q op n hbuf
        (by intro j c hj; exact hops j c (by rw [hj]; exact List.mem_cons_self _ _))
      rcases List.mem_append.mp hw with h1 | h1
      · exact hstep.2 w h1
      · exact ih _ hstep.1
          (by intro j c hj; exact hops j c (List.mem_cons_of_mem _ hj)) w h1

/-- C10: the buffer never exceeds `max_size`; a `put` on a full open queue
still succeeds with a fresh id, the oldest buffered item is silently
evicted, and (ids being fresh uuids) that item is never returned by any
subsequent `get`; every later state also respects the bound. -/
theorem queue_bounded_eviction (q : MessageQueue) (i : Nat) (c : Context)
    (ops : List QueueOp) (w : MessageWrapper) (rest : List MessageWrapper)
    (hopen : q.closed = false)
    (hfull : q.buffer.length = q.maxSize)
    (hbuf : q.buffer = w :: rest)
    (hfresh : w.id ≠ i)
    (hnodup : ∀ v ∈ rest, v.id ≠ w.id)
    (hops : ∀ j c', QueueOp.put j c' ∈ ops → j ≠ w.id) :
    q.put i c = Except.ok (i, { q with buffer := rest ++ [MessageWrapper.mk i c] }) ∧
    ({ q with buffer := rest ++ [MessageWrapper.mk i c] } : MessageQueue).Wf ∧
    (∀ v ∈ (({ q with buffer := rest ++ [MessageWrapper.mk i c] } : MessageQueue).run ops).2,
        v.id ≠ w.id) ∧
    ((({ q with buffer := rest ++ [MessageWrapper.mk i c] } : MessageQueue).run ops).1.Wf) := by
  have hlen : q.buffer.length = rest.length + 1 := by rw [hbuf]; simp
  have htail : (q.buffer ++ [MessageWrapper.mk i c]).tail = rest ++ [MessageWrapper.mk i c] := by
    rw [hbuf]; rfl
  have hput : q.put i c =
      Except.ok (i, { q with buffer := rest ++ [MessageWrapper.mk i c] }) := by
    rw [put_open_eq q i c hopen, if_pos (by omega), htail]
  have hwf' : ({ q with buffer := rest ++ [MessageWrapper.mk i c] } : MessageQueue).Wf := by
    simp only [MessageQueue.Wf, List.length_append, List.length_cons, List.length_nil]
    omega
  have hnot : ∀ v ∈ rest ++ [MessageWrapper.mk i c], v.id ≠ w.id := by
    intro v hv
    rcases List.mem_append.mp hv with h1 | h1
    · exact hnodup v h1
    · simp at h1
      subst h1
      exact fun hcontra => hfresh hcontra.symm
  refine ⟨hput, hwf', ?_, ?_⟩
  · exact run_avoids_id ops _ w.id hnot hops
  · exact run_preserves_wf ops _ hwf'

/-- Witness for `queue_bounded_eviction` at a concrete full queue and a
concrete operation sequence. -/
theorem queue_bounded_eviction_witness :
    MessageQueue.put { maxSize := 2, buffer := [⟨0, ctxA⟩, ⟨1, ctxB⟩], closed := false } 2 ctxC =
      Except.ok (2, { maxSize := 2, buffer := [⟨1, ctxB⟩, ⟨2, ctxC⟩], closed := false }) ∧
    (∀ v ∈ (MessageQueue.run { maxSize := 2, buffer := [⟨1, ctxB⟩, ⟨2, ctxC⟩], closed := false }
        [QueueOp.get, QueueOp.get, QueueOp.put 3 ctxA, QueueOp.get]).2, v.id ≠ 0) := by
  have h := queue_bounded_eviction
    { maxSize := 2, buffer := [⟨0, ctxA⟩, ⟨1, ctxB⟩], closed := false } 2 ctxC
    [QueueOp.get, QueueOp.get, QueueOp.put 3 ctxA, QueueOp.get]
    ⟨0, ctxA⟩ [⟨1, ctxB⟩]
    rfl rfl rfl (by decide) (by decide)
    (by
      intro j c' hj
      simp only [List.mem_cons, List.not_mem_nil, or_false] at hj
      rcases hj with h | h | h | h <;> simp_all)
  exact ⟨h.1, h.2.2.1⟩

/-! ## C5: frame decoder (`PDDChatMessage`, `Channel/pinduoduo/pdd_message.py`)

`PDDChatMessage.__init__` first checks `message.from.role == "mall_cs"`;
otherwise `_process_message` dispatches on `response` and the inner numeric
`type` / `sub_type`.  Absent JSON keys are Python `None`, modelled as
`Option.none` (and `None == 0` is false in Python, matching
`Option.none ≠ some 0`). -/

/-- The fields of a websocket frame that the decoder reads. -/
structure Frame where
  response : Option String
  msgType : Option Int
  subType : Option Int
  fromRole : Option String
deriving DecidableEq, Repr

/-- Python `str` of an optional int (absent key prints as `None`). -/
def pyStrOfInt : Option Int → String
  | Option.some n => toString n
  | Option.none => "None"

/-- Python `str` of an optional string. -/
def pyStrOfStr : Option String → String
  | Option.some s => s
  | Option.none => "None"

/-- The decoder: kind plus the "unsupported type" text produced by the two
fallthrough branches (`None` for every recognized shape).  Mirrors
`PDDChatMessage.__init__` + `_process_message`. -/
def pddProcessMessage (f : Frame) : ContextType × Option String :=
  if f.fromRole = Option.some "mall_cs" then (ContextType.mallCs, Option.none)
  else if f.response = Option.some "push" then
    if f.msgType = Option.some 0 then
      if f.subType = Option.some 1 then (ContextType.orderInfo, Option.none)
      else if f.subType = Option.some 0 then (ContextType.goodsInquiry, Option.none)
      else (ContextType.text, Option.none)
    else if f.msgType = Option.some 1 then (ContextType.image, Option.none)
    else if f.msgType = Option.some 14 then (ContextType.video, Option.none)
    else if f.msgType = Option.some 1002 then (ContextType.withdraw, Option.none)
    else if f.msgType = Option.some 5 then (ContextType.emotion, Option.none)
    else if f.msgType = Option.some 64 then (ContextType.goodsSpec, Option.none)
    else if f.msgType = Option.some 24 then (ContextType.transfer, Option.none)
    else (ContextType.systemStatus, Option.some ("不支持的消息类型: " ++ pyStrOfInt f.msgType))
  else if f.response = Option.some "auth" then (ContextType.auth, Option.none)
  else if f.response = Option.some "mall_system_msg" then (ContextType.mallSystemMsg, Option.none)
  else (ContextType.systemStatus, Option.some ("不支持的消息类型: " ++ pyStrOfStr f.response))

/-- The decoding table exactly as the spec's §4.3 states it, including the
`mall_cs` short-circuit; written from the spec's words for comparison with
the decoder embedded from the source. -/
def specDecodingTable (f : Frame) : ContextType :=
  if f.fromRole = Option.some "mall_cs" then ContextType.mallCs
  else if f.response = Option.some "push" then
    if f.msgType = Option.some 0 then
      if f.subType = Option.some 1 then ContextType.orderInfo
      else if f.subType = Option.some 0 then ContextType.goodsInquiry
      else ContextType.text
    else if f.msgType = Option.some 1 then ContextType.image
    else if f.msgType = Option.some 14 then ContextType.video
    else if f.msgType = Option.some 1002 then ContextType.withdraw
    else if f.msgType = Option.some 5 then ContextType.emotion
    else if f.msgType = Option.some 64 then ContextType.goodsSpec
    else if f.msgType = Option.some 24 then ContextType.transfer
    else ContextType.systemStatus
  else if f.response = Option.some "auth" then ContextType.auth
  else if f.response = Option.some "mall_system_msg" then ContextType.mallSystemMsg
  else ContextType.systemStatus

/-- C5: the embedded decoder agrees with the spec's decoding table on every
frame, and it yields an "unsupported type" text exactly on the
`SystemStatus` fallthrough rows (it never raises: it is a total function). -/
theorem decoder_matches_spec_table (f : Frame) :
    (pddProcessMessage f).1 = specDecodingTable f ∧
    ((pddProcessMessage f).2.isSome ↔ (pddProcessMessage f).1 = ContextType.systemStatus) := by
  unfold pddProcessMessage specDecodingTable
  split_ifs <;> simp

/-! ## Handler chain (`Message/message_handler.py`, `Message/message_consumer.py`)

`handler_chain` builds `[BusinessHoursHandler, CustomerServiceTransferHandler,
AIAutoReplyHandler]`; `UserSequentialProcessor._process_single_message` walks
that list, runs `handle` on the first handler whose `can_handle` is true,
and `break`s whether or not `handle` succeeded. -/

/-- Python substring test `needle in hay`. -/
def strContains (hay needle : String) : Bool :=
  hay.toList.tails.any fun t => needle.toList.isPrefixOf t

/-- Python `str.lower()`: lower-case each character. -/
def pyLower (s : String) : String :=
  String.mk (s.toList.map Char.toLower)

/-- The default `transfer_keywords` list of `CustomerServiceTransferHandler`. -/
def transferKeywords : List String :=
  ["人工客服", "转人工", "人工", "客服", "投诉", "举报", "不满意", "解决不了", "要求赔偿"]

/-- Embeds `CustomerServiceTransferHandler.can_handle`: a Text event whose string
content contains a transfer keyword. -/
def transferCanHandle (c : Context) : Bool :=
  if c.type ≠ ContextType.text then false
  else
    match c.content with
    | ContentVal.str s => transferKeywords.any fun k => strContains (pyLower s) k
    | _ => false

/-- Business hours config (`{'start': 'HH:MM', 'end': 'HH:MM'}`), with the
two bounds already parsed to seconds-of-day as `datetime.strptime('%H:%M')`
does. -/
structure BusinessHours where
  startTime : Nat
  endTime : Nat
deriving DecidableEq, Repr

/-- Embeds `BusinessHoursHandler.can_handle`: accepts exactly outside
`start <= now <= end` (boundaries inclusive); `now` is the local
seconds-of-day. -/
def businessHoursCanHandle (bh : BusinessHours) (now : Nat) : Bool :=
  if bh.startTime ≤ now ∧ now ≤ bh.endTime then false else true

/-- Embeds `AIAutoReplyHandler`'s default `auto_reply_types`. -/
def aiAutoReplyTypes : List ContextType :=
  [ContextType.text, ContextType.goodsInquiry, ContextType.goodsSpec,
   ContextType.orderInfo, ContextType.image, ContextType.video, ContextType.emotion]

/-- Embeds `AIAutoReplyHandler.can_handle`: supported kind on the Pinduoduo
channel. -/
def aiCanHandle (c : Context) : Bool :=
  aiAutoReplyTypes.contains c.type && c.channelType == ChannelType.pinduoduo

/-- The `accepts` predicates of `handler_chain(use_ai=True, businessHours)`,
in source order. -/
def chainAccepts (bh : BusinessHours) (now : Nat) : List (Context → Bool) :=
  [fun _ => businessHoursCanHandle bh now, transferCanHandle, aiCanHandle]

/-- The `for handler in self.handlers` loop of `_process_single_message`:
returns the indices whose `handle` ran and the final `handled` flag.
`handleResult i` is the (oracle) outcome of handler `i`'s `handle`; the
loop `break`s after the first accepting handler regardless of it. -/
def scanHandlers : List (Context → Bool) → Context → (Nat → Bool) → Nat → List Nat × Bool
  | [], _, _, _ => ([], false)
  | a :: rest, c, res, idx =>
      if a c then ([idx], res idx)
      else scanHandlers rest c res (idx + 1)

/-- Embeds `UserSequentialProcessor._process_single_message` over a handler list. -/
def processSingleMessage (accepts : List (Context → Bool)) (c : Context)
    (handleResult : Nat → Bool) : List Nat × Bool :=
  scanHandlers accepts c handleResult 0

/-- In any handler list, at most one `handle` is ever invoked per event. -/
theorem scanHandlers_invokes_at_most_one (hs : List (Context → Bool)) (c : Context)
    (res : Nat → Bool) (idx : Nat) :
    (scanHandlers hs c res idx).1.length ≤ 1 := by
  induction hs generalizing idx with
  | nil => simp [scanHandlers]
  | cons a rest ih =>
      by_cases h : a c
      · simp [scanHandlers, h]
      · simp only [scanHandlers, if_neg h]
        exact ih (idx + 1)

/-- The set of invoked handlers never depends on the `handle` outcomes. -/
theorem scanHandlers_invocations_ignore_results (hs : List (Context → Bool)) (c : Context)
    (res res' : Nat → Bool) (idx : Nat) :
    (scanHandlers hs c res idx).1 = (scanHandlers hs c res' idx).1 := by
  induction hs generalizing idx with
  | nil => simp [scanHandlers]
  | cons a rest ih =>
      by_cases h : a c
      · simp [scanHandlers, h]
      · simp only [scanHandlers, if_neg h]
        exact ih (idx + 1)

/-- C6: for the default chain (business-hours, transfer-to-human, AI reply),
at most one `handle` runs; handlers are consulted in chain order, the first
whose `accepts` is true owns the event, and later handlers are not
consulted — the invocation set is independent of the owner's
success/failure. -/
theorem handler_chain_first_accepting_owns (bh : BusinessHours) (now : Nat) (c : Context)
    (res : Nat → Bool) :
    (processSingleMessage (chainAccepts bh now) c res).1.length ≤ 1 ∧
    (businessHoursCanHandle bh now = true →
      (processSingleMessage (chainAccepts bh now) c res).1 = [0]) ∧
    (businessHoursCanHandle bh now = false → transferCanHandle c = true →
      (processSingleMessage (chainAccepts bh now) c res).1 = [1]) ∧
    (businessHoursCanHandle bh now = false → transferCanHandle c = false →
      aiCanHandle c = true →
      (processSingleMessage (chainAccepts bh now) c res).1 = [2]) ∧
    (businessHoursCanHandle bh now = false → transferCanHandle c = false →
      aiCanHandle c = false →
      (processSingleMessage (chainAccepts bh now) c res).1 = []) ∧
    (∀ res' : Nat → Bool,
      (processSingleMessage (chainAccepts bh now) c res').1 =
        (processSingleMessage (chainAccepts bh now) c res).1) := by
  refine ⟨scanHandlers_invokes_at_most_one _ c res 0, ?_, ?_, ?_, ?_, ?_⟩
  · intro h1
    simp [processSingleMessage, chainAccepts, scanHandlers, h1]
  · intro h1 h2
    simp [processSingleMessage, chainAccepts, scanHandlers, h1, h2]
  · intro h1 h2 h3
    simp [processSingleMessage, chainAccepts, scanHandlers, h1, h2, h3]
  · intro h1 h2 h3
    simp [processSingleMessage, chainAccepts, scanHandlers, h1, h2, h3]
  · intro res'
    exact scanHandlers_invocations_ignore_results _ c res' res 0

/-- Witness for `handler_chain_first_accepting_owns`: inside business hours
a transfer-keyword text goes to handler 1 even when its `handle` fails. -/
theorem handler_chain_first_accepting_owns_witness :
    (processSingleMessage
      (chainAccepts { startTime := 28800, endTime := 82800 } 30000)
      { type := ContextType.text, content := ContentVal.str "转人工",
        fromUid := "U3", shopId := "S1", userId := "A1",
        channelType := ChannelType.pinduoduo }
      (fun _ => false)).1 = [1] := by
  have h := (handler_chain_first_accepting_owns
    { startTime := 28800, endTime := 82800 } 30000
    { type := ContextType.text, content := ContentVal.str "转人工",
      fromUid := "U3", shopId := "S1", userId := "A1",
      channelType := ChannelType.pinduoduo }
    (fun _ => false)).2.2.1 (by decide) (by decide)
  exact h

/-! ## C7: `CustomerServiceTransferHandler.handle` -/

/-- Outbound platform calls the transfer handler can make. -/
inductive TAction where
  | moveConversation (fromUid csUid : String)
  | sendText (uid text : String)
deriving DecidableEq, Repr

/-- The fixed apology sent when no other seat is available. -/
def noAgentText : String := "抱歉，当前没有其他客服在线，请您稍后再试。"

/-- Embeds `CustomerServiceTransferHandler.handle`: `csList` is the
`getAssignCsList()` result (an ordered dict `uid -> info`, `none` when the
fetch failed or returned a non-dict), `transferOk` the success flag of the
`move_conversation` envelope.  Returns the handler's boolean and the
platform calls it made, in order. -/
def transferHandle (shopId userId fromUid : String)
    (csList : Option (List (String × String))) (transferOk : Bool) :
    Bool × List TAction :=
  if shopId = "" ∨ userId = "" ∨ fromUid = "" then (false, [])
  else
    match csList with
    | Option.none => (false, [])
    | Option.some l =>
        if l.isEmpty then (false, [])
        else
          let myCsUid := "cs_" ++ shopId ++ "_" ++ userId
          let avail := l.filter fun p => p.1 != myCsUid
          match avail with
          | [] => (false, [TAction.sendText fromUid noAgentText])
          | (csUid, _) :: _ =>
              if transferOk then (true, [TAction.moveConversation fromUid csUid])
              else (false, [TAction.moveConversation fromUid csUid])

/-- C7 counterexample: with an empty assignable-CS dict (`{}` is falsy in
Python, so `if cs_list and isinstance(cs_list, dict)` skips the whole
block) the handler makes no call at all — in particular it does not send
the fixed "no agent available" text the claim requires. -/
theorem transfer_empty_list_sends_nothing :
    transferHandle "S1" "A1" "U1" (Option.some []) true = (false, []) ∧
    TAction.sendText "U1" noAgentText ∉
      (transferHandle "S1" "A1" "U1" (Option.some []) true).2 := by
  refine ⟨by decide, ?_⟩
  decide

/-- C7 (amended): when the fetched list is a non-empty dict the handler
excludes the seat's own id `cs_<shop>_<user>` and calls
`move_conversation` towards the first remaining seat; when the non-empty
list contains only the seat itself it sends the fixed "no agent available"
text; but when the fetch fails or returns an empty dict the handler
returns failure without sending anything. -/
theorem transfer_handler_behaviour (shopId userId fromUid : String)
    (csList : Option (List (String × String))) (transferOk : Bool)
    (hs : shopId ≠ "") (hu : userId ≠ "") (hf : fromUid ≠ "") :
    (csList = Option.none →
      transferHandle shopId userId fromUid csList transferOk = (false, [])) ∧
    (csList = Option.some [] →
      transferHandle shopId userId fromUid csList transferOk = (false, [])) ∧
    (∀ l, csList = Option.some l → l ≠ [] →
      l.filter (fun p => p.1 != "cs_" ++ shopId ++ "_" ++ userId) = [] →
      transferHandle shopId userId fromUid csList transferOk =
        (false, [TAction.sendText fromUid noAgentText])) ∧
    (∀ l csUid nm rest, csList = Option.some l → l ≠ [] →
      l.filter (fun p => p.1 != "cs_" ++ shopId ++ "_" ++ userId) = (csUid, nm) :: rest →
      transferHandle shopId userId fromUid csList transferOk =
        (transferOk, [TAction.moveConversation fromUid csUid])) := by
  have hids : ¬ (shopId = "" ∨ userId = "" ∨ fromUid = "") := by
    simp [hs, hu, hf]
  refine ⟨?_, ?_, ?_, ?_⟩
  · intro h
    subst h
    simp [transferHandle, hids]
  · intro h
    subst h
    simp [transferHandle, hids]
  · intro l h hne hfil
    subst h
    have hle : l.isEmpty = false := by
      cases l with
      | nil => exact absurd rfl hne
      | cons a as => rfl
    simp only [transferHandle, if_neg hids, hle, Bool.false_eq_true, if_false, hfil]
  · intro l csUid nm rest h hne hfil
    subst h
    have hle : l.isEmpty = false := by
      cases l with
      | nil => exact absurd rfl hne
      | cons a as => rfl
    simp only [transferHandle, if_neg hids, hle, Bool.false_eq_true, if_false, hfil]
    cases transferOk <;> rfl

/-- Witness for `transfer_handler_behaviour`: the current seat plus one
other seat; the conversation moves to the other seat. -/
theorem transfer_handler_behaviour_witness :
    transferHandle "S1" "A1" "U3"
      (Option.some [("cs_S1_A1", "me"), ("cs_S1_B2", "other")]) true =
      (true, [TAction.moveConversation "U3" "cs_S1_B2"]) := by
  have h := (transfer_handler_behaviour "S1" "A1" "U3"
    (Option.some [("cs_S1_A1", "me"), ("cs_S1_B2", "other")]) true
    (by decide) (by decide) (by decide)).2.2.2
    [("cs_S1_A1", "me"), ("cs_S1_B2", "other")] "cs_S1_B2" "other" []
    rfl (by decide) (by decide)
  exact h

/-! ## C4: `BaseRequest._execute_with_retry` / `_relogin_and_update_cookies`
(`Channel/pinduoduo/utils/API/base_request.py`)

The HTTP layer is an oracle `script : Nat -> AttemptResult` giving the
outcome of each numbered attempt, and `ReloginEnv` fixes what the database
and the login subsystem would answer during this call.  The functions
return the final value of the Python call together with the ordered list
of externally visible events.  `shop_id`/`user_id` are taken as present
(the account-attached calls the claim is about). -/

/-- The parsed JSON body of a 200 response, as `_is_session_expired`
reads it. -/
structure RespData where
  errorCode : Option Int
  errorMsg : String
deriving DecidableEq, Repr

/-- Embeds `BaseRequest._is_session_expired`: code 43001 and the expiry substring
in `error_msg`. -/
def isSessionExpired (d : RespData) : Bool :=
  d.errorCode == Option.some 43001 && strContains d.errorMsg "会话已过期"

/-- Outcome of one raw HTTP attempt. -/
inductive AttemptResult where
  | exn (retryable : Bool)
  | http (code : Nat)
  | ok (data : Option RespData)
deriving DecidableEq, Repr

/-- Embeds `BaseRequest._should_retry` for a non-200 status code. -/
def shouldRetryStatus (code : Nat) : Bool :=
  decide (500 ≤ code) || [429, 408, 502, 503, 504].contains code

/-- What the database and the login subsystem would answer during this
call (`None` = the corresponding step fails). -/
structure ReloginEnv where
  accountExists : Bool
  username : Option String
  password : Option String
  refreshCookies : Option String
  loginCookies : Option String
deriving DecidableEq, Repr

/-- Externally visible events of one `_execute_with_retry` call. -/
inductive REvent where
  | request
  | reloginCycle
  | refreshCall
  | loginCall
  | persistCookies (cookies : String)
  | backoffSleep
deriving DecidableEq, Repr

/-- Embeds `BaseRequest._relogin_and_update_cookies`: try the silent
`refresh_pdd_cookies` first; only if it yields no cookies (and a password
is on file) fall back to the full `login_pdd`; on either success update
the in-memory cookies and persist them via
`db_manager.update_account_cookies`. -/
def reloginAndUpdateCookies (renv : ReloginEnv) : Bool × List REvent :=
  if renv.accountExists = false then (false, [REvent.reloginCycle])
  else
    match renv.username with
    | Option.none => (false, [REvent.reloginCycle])
    | Option.some _ =>
        match renv.refreshCookies with
        | Option.some ck =>
            (true, [REvent.reloginCycle, REvent.refreshCall, REvent.persistCookies ck])
        | Option.none =>
            match renv.password with
            | Option.none => (false, [REvent.reloginCycle, REvent.refreshCall])
            | Option.some _ =>
                match renv.loginCookies with
                | Option.some ck =>
                    (true, [REvent.reloginCycle, REvent.refreshCall, REvent.loginCall,
                            REvent.persistCookies ck])
                | Option.none =>
                    (false, [REvent.reloginCycle, REvent.refreshCall, REvent.loginCall])

/-- Embeds `BaseRequest._execute_with_retry`: `remaining` is the number of loop
iterations left (`max_retries + 1` at entry), `attempt` the Python loop
index, `reloginAttempted` the once-per-call flag.  Faithful to the source:
a 200 response with a session-expired body triggers one relogin cycle and
`continue`s on success (without checking the budget), returns the expired
body on failure; non-200 and exceptions retry with backoff only while
`attempt < max_retries` and the error is retryable, else the call yields
`None`. -/
def executeWithRetry (renv : ReloginEnv) (script : Nat → AttemptResult) :
    Nat → Nat → Bool → Option RespData × List REvent
  | 0, _, _ => (Option.none, [])
  | remaining + 1, attempt, reloginAttempted =>
      match script attempt with
      | AttemptResult.ok (Option.some d) =>
          if isSessionExpired d && !reloginAttempted then
            match reloginAndUpdateCookies renv with
            | (true, cevs) =>
                let next := executeWithRetry renv script remaining (attempt + 1) true
                (next.1, REvent.request :: cevs ++ next.2)
            | (false, cevs) => (Option.some d, REvent.request :: cevs)
          else (Option.some d, [REvent.request])
      | AttemptResult.ok Option.none => (Option.none, [REvent.request])
      | AttemptResult.http code =>
          if 0 < remaining ∧ shouldRetryStatus code = true then
            let next := executeWithRetry renv script remaining (attempt + 1) reloginAttempted
            (next.1, REvent.request :: REvent.backoffSleep :: next.2)
          else (Option.none, [REvent.request])
      | AttemptResult.exn retryable =>
          if 0 < remaining ∧ retryable = true then
            let next := executeWithRetry renv script remaining (attempt + 1) reloginAttempted
            (next.1, REvent.request :: REvent.backoffSleep :: next.2)
          else (Option.none, [REvent.request])

/-- The events that follow the (first) relogin cycle. -/
def eventsAfterReloginCycle (evs : List REvent) : List REvent :=
  (evs.dropWhile fun e => e != REvent.reloginCycle).drop 1

/-- The relogin cycle's event list always starts with the cycle marker and
never contains a request or a second cycle marker. -/
theorem relogin_cycle_events (renv : ReloginEnv) :
    ∃ cevs, (reloginAndUpdateCookies renv).2 = REvent.reloginCycle :: cevs ∧
      REvent.request ∉ cevs ∧ REvent.reloginCycle ∉ cevs := by
  rcases renv with ⟨ae, un, pw, rc, lc⟩
  cases ae <;> cases un <;> cases rc <;> cases pw <;> cases lc <;>
    exact ⟨_, rfl, by simp, by simp⟩

/-- Once `relogin_attempted` is set, no further cycle is started. -/
theorem run_no_cycle_when_attempted (renv : ReloginEnv) (script : Nat → AttemptResult) :
    ∀ rem att, REvent.reloginCycle ∉ (executeWithRetry renv script rem att true).2 := by
  intro rem
  induction rem with
  | zero => intro att; simp [executeWithRetry]
  | succ rem ih =>
      intro att
      cases hscript : script att with
      | ok data =>
          cases data with
          | some d =>
              simp only [executeWithRetry, hscript, Bool.not_true, Bool.and_false,
                Bool.false_eq_true, if_false]
              simp
          | none => simp [executeWithRetry, hscript]
      | http code =>
          simp only [executeWithRetry, hscript]
          by_cases hr : 0 < rem ∧ shouldRetryStatus code = true
          · simp only [if_pos hr, List.mem_cons]
            push_neg
            exact ⟨by simp, by simp, fun h => (ih (att + 1)) h⟩
          · simp [if_neg hr]
      | exn retryable =>
          simp only [executeWithRetry, hscript]
          by_cases hr : 0 < rem ∧ retryable = true
          · simp only [if_pos hr, List.mem_cons]
            push_neg
            exact ⟨by simp, by simp, fun h => (ih (att + 1)) h⟩
          · simp [if_neg hr]

/-- C4 conjunct: at most one relogin cycle per call. -/
theorem run_cycle_count_le_one (renv : ReloginEnv) (script : Nat → AttemptResult) :
    ∀ rem att, ((executeWithRetry renv script rem att false).2.count REvent.reloginCycle) ≤ 1 := by
  intro rem
  induction rem with
  | zero => intro att; simp [executeWithRetry]
  | succ rem ih =>
      intro att
      cases hscript : script att with
      | ok data =>
          cases data with
          | some d =>
              simp only [executeWithRetry, hscript, Bool.not_false, Bool.and_true]
              by_cases hexp : isSessionExpired d = true
              · simp only [hexp, if_true]
                rcases hrel : reloginAndUpdateCookies renv with ⟨ok, cevs⟩
                obtain ⟨cevs', hshape, -, hnc⟩ := relogin_cycle_events renv
                rw [hrel] at hshape
                simp only at hshape
                cases ok
                · simp only [List.count_cons, hshape]
                  have : cevs'.count REvent.reloginCycle = 0 :=
                    List.count_eq_zero.mpr (by simpa using hnc)
                  simp [List.count_cons, this]
                · have hnone : REvent.reloginCycle ∉
                      (executeWithRetry renv script rem (att + 1) true).2 :=
                    run_no_cycle_when_attempted renv script rem (att + 1)
                  simp only [List.count_cons, List.count_append, hshape]
                  have h0 : ((executeWithRetry renv script rem (att + 1) true).2.count
                      REvent.reloginCycle) = 0 := List.count_eq_zero.mpr hnone
                  have h1 : cevs'.count REvent.reloginCycle = 0 :=
                    List.count_eq_zero.mpr (by simpa using hnc)
                  simp [List.count_cons, List.count_append, h0, h1]
              · simp only [Bool.not_eq_true] at hexp
                simp [hexp]
          | none => simp [executeWithRetry, hscript]
      | http code =>
          simp only [executeWithRetry, hscript]
          by_cases hr : 0 < rem ∧ shouldRetryStatus code = true
          · simp only [if_pos hr]
            have := ih (att + 1)
            simp only [List.count_cons]
            simpa using this
          · simp [if_neg hr]
      | exn retryable =>
          simp only [executeWithRetry, hscript]
          by_cases hr : 0 < rem ∧ retryable = true
          · simp only [if_pos hr]
            have := ih (att + 1)
            simp only [List.count_cons]
            simpa using this
          · simp [if_neg hr]

/-- Every call with at least one iteration left issues a request. -/
theorem run_emits_request (renv : ReloginEnv) (script : Nat → AttemptResult) :
    ∀ rem att b, 0 < rem →
      REvent.request ∈ (executeWithRetry renv script rem att b).2 := by
  intro rem att b hrem
  cases rem with
  | zero => omega
  | succ rem =>
      cases hscript : script att with
      | ok data =>
          cases data with
          | some d =>
              simp only [executeWithRetry, hscript]
              by_cases hexp : (isSessionExpired d && !b) = true
              · simp only [hexp, if_true]
                rcases hrel : reloginAndUpdateCookies renv with ⟨ok, cevs⟩
                cases ok <;> simp
              · simp [hexp]
          | none => simp [executeWithRetry, hscript]
      | http code =>
          simp only [executeWithRetry, hscript]
          by_cases hr : 0 < rem ∧ shouldRetryStatus code = true
          · simp [if_pos hr]
          · simp [if_neg hr]
      | exn retryable =>
          simp only [executeWithRetry, hscript]
          by_cases hr : 0 < rem ∧ retryable = true
          · simp [if_pos hr]
          · simp [if_neg hr]

/-- Dropping up to the cycle marker skips a non-marker head. -/
theorem eventsAfterReloginCycle_cons_ne (e : REvent) (evs : List REvent)
    (h : e ≠ REvent.reloginCycle) :
    eventsAfterReloginCycle (e :: evs) = eventsAfterReloginCycle evs := by
  have hb : (e != REvent.reloginCycle) = true := by
    simpa using h
  simp [eventsAfterReloginCycle, List.dropWhile, hb]

/-- Dropping up to the cycle marker stops at the marker. -/
theorem eventsAfterReloginCycle_cons_cycle (evs : List REvent) :
    eventsAfterReloginCycle (REvent.reloginCycle :: evs) = evs := by
  simp [eventsAfterReloginCycle, List.dropWhile]

/-- The tail after the cycle marker in a `request, cycle, ...` trace. -/
theorem eventsAfterReloginCycle_request_cycle (x : List REvent) :
    eventsAfterReloginCycle (REvent.request :: REvent.reloginCycle :: x) = x := by
  rfl

/-- C4 conjunct: if the refresh cycle fails, the call hands back the
session-expired body it saw (no further refresh, no retry). -/
theorem run_cycle_fail_returns_expired (renv : ReloginEnv) (script : Nat → AttemptResult)
    (hfail : (reloginAndUpdateCookies renv).1 = false) :
    ∀ rem att, REvent.reloginCycle ∈ (executeWithRetry renv script rem att false).2 →
      ∃ d, isSessionExpired d = true ∧
        (executeWithRetry renv script rem att false).1 = Option.some d := by
  intro rem
  induction rem with
  | zero => intro att h; simp [executeWithRetry] at h
  | succ rem ih =>
      intro att h
      cases hscript : script att with
      | ok data =>
          cases data with
          | some d =>
              rw [executeWithRetry] at h ⊢
              simp only [hscript] at h ⊢
              by_cases hexp : isSessionExpired d = true
              · simp only [hexp, Bool.not_false, Bool.and_true, Bool.true_and, if_true] at h ⊢
                rcases hrel : reloginAndUpdateCookies renv with ⟨ok, cevs⟩
                cases ok
                · exact ⟨d, hexp, rfl⟩
                · rw [hrel] at hfail; simp at hfail
              · simp only [hexp] at h
                simp at h
          | none =>
              rw [executeWithRetry] at h
              simp only [hscript] at h
              simp at h
      | http code =>
          rw [executeWithRetry] at h ⊢
          simp only [hscript] at h ⊢
          by_cases hr : 0 < rem ∧ shouldRetryStatus code = true
          · simp only [if_pos hr] at h ⊢
            simp only [List.mem_cons] at h
            rcases h with h | h | h
            · cases h
            · cases h
            · exact ih (att + 1) h
          · simp only [if_neg hr] at h
            simp at h
      | exn retryable =>
          rw [executeWithRetry] at h ⊢
          simp only [hscript] at h ⊢
          by_cases hr : 0 < rem ∧ retryable = true
          · simp only [if_pos hr] at h ⊢
            simp only [List.mem_cons] at h
            rcases h with h | h | h
            · cases h
            · cases h
            · exact ih (att + 1) h
          · simp only [if_neg hr] at h
            simp at h

/-- C4 conjunct: if the refresh cycle succeeds, the original request is
retried right after it — except when the expiry was first seen on the
final permitted attempt, in which case the whole request budget is spent
and the call returns `None` without a retry. -/
theorem run_cycle_success_retries (renv : ReloginEnv) (script : Nat → AttemptResult)
    (hsucc : (reloginAndUpdateCookies renv).1 = true) :
    ∀ rem att, REvent.reloginCycle ∈ (executeWithRetry renv script rem att false).2 →
      REvent.request ∈ eventsAfterReloginCycle (executeWithRetry renv script rem att false).2 ∨
      ((executeWithRetry renv script rem att false).2.count REvent.request = rem ∧
        (executeWithRetry renv script rem att false).1 = Option.none) := by
  intro rem
  induction rem with
  | zero => intro att h; simp [executeWithRetry] at h
  | succ rem ih =>
      intro att h
      cases hscript : script att with
      | ok data =>
          cases data with
          | some d =>
              rw [executeWithRetry] at h ⊢
              simp only [hscript] at h ⊢
              by_cases hexp : isSessionExpired d = true
              · simp only [hexp, Bool.not_false, Bool.and_true, Bool.true_and, if_true] at h ⊢
                rcases hrel : reloginAndUpdateCookies renv with ⟨ok, cevs⟩
                obtain ⟨cevs', hshape, hnr, -⟩ := relogin_cycle_events renv
                rw [hrel] at hshape
                simp only at hshape
                cases ok
                · rw [hrel] at hsucc; simp at hsucc
                · dsimp only at h ⊢
                  simp only [hshape, List.cons_append]
                  rw [eventsAfterReloginCycle_request_cycle]
                  cases rem with
                  | zero =>
                      right
                      constructor
                      · simp only [executeWithRetry, List.count_cons, List.count_append]
                        have h1 : cevs'.count REvent.request = 0 :=
                          List.count_eq_zero.mpr hnr
                        simp [List.count_nil, h1]
                      · simp [executeWithRetry]
                  | succ rem' =>
                      left
                      have := run_emits_request renv script (rem' + 1) (att + 1) true
                        (by omega)
                      simp only [List.mem_append]
                      right
                      exact this
              · simp only [hexp] at h
                simp at h
          | none =>
              rw [executeWithRetry] at h
              simp only [hscript] at h
              simp at h
      | http code =>
          rw [executeWithRetry] at h ⊢
          simp only [hscript] at h ⊢
          by_cases hr : 0 < rem ∧ shouldRetryStatus code = true
          · simp only [if_pos hr] at h ⊢
            simp only [List.mem_cons] at h
            rcases h with h | h | h
            · cases h
            · cases h
            · rcases ih (att + 1) h with hl | ⟨hc, hres⟩
              · left
                rw [eventsAfterReloginCycle_cons_ne REvent.request _ (by simp),
                  eventsAfterReloginCycle_cons_ne REvent.backoffSleep _ (by simp)]
                exact hl
              · right
                refine ⟨?_, hres⟩
                simp only [List.count_cons]
                rw [hc]
                simp
          · simp only [if_neg hr] at h
            simp at h
      | exn retryable =>
          rw [executeWithRetry] at h ⊢
          simp only [hscript] at h ⊢
          by_cases hr : 0 < rem ∧ retryable = true
          · simp only [if_pos hr] at h ⊢
            simp only [List.mem_cons] at h
            rcases h with h | h | h
            · cases h
            · cases h
            · rcases ih (att + 1) h with hl | ⟨hc, hres⟩
              · left
                rw [eventsAfterReloginCycle_cons_ne REvent.request _ (by simp),
                  eventsAfterReloginCycle_cons_ne REvent.backoffSleep _ (by simp)]
                exact hl
              · right
                refine ⟨?_, hres⟩
                simp only [List.count_cons]
                rw [hc]
                simp
          · simp only [if_neg hr] at h
            simp at h

/-- C4 (amended): for every call (`max_retries = maxR`), the refresh cycle
runs at most once; a full `login_pdd` happens only after the silent
`refresh_pdd_cookies` failed; a successful cycle persists the new cookies;
if the cycle fails the call returns the session-expired body it saw; and
after a successful cycle the original request is retried — unless the
expiry was first observed on the final loop iteration, in which case the
call spent its whole request budget and returns `None` without a retry. -/
theorem session_expiry_refresh_cycle (renv : ReloginEnv) (script : Nat → AttemptResult)
    (maxR : Nat) :
    ((executeWithRetry renv script (maxR + 1) 0 false).2.count REvent.reloginCycle ≤ 1) ∧
    (REvent.loginCall ∈ (reloginAndUpdateCookies renv).2 →
      renv.refreshCookies = Option.none ∧
      REvent.refreshCall ∈ (reloginAndUpdateCookies renv).2) ∧
    ((reloginAndUpdateCookies renv).1 = true →
      ∃ ck, REvent.persistCookies ck ∈ (reloginAndUpdateCookies renv).2) ∧
    ((reloginAndUpdateCookies renv).1 = false →
      REvent.reloginCycle ∈ (executeWithRetry renv script (maxR + 1) 0 false).2 →
      ∃ d, isSessionExpired d = true ∧
        (executeWithRetry renv script (maxR + 1) 0 false).1 = Option.some d) ∧
    ((reloginAndUpdateCookies renv).1 = true →
      REvent.reloginCycle ∈ (executeWithRetry renv script (maxR + 1) 0 false).2 →
      REvent.request ∈
        eventsAfterReloginCycle (executeWithRetry renv script (maxR + 1) 0 false).2 ∨
      ((executeWithRetry renv script (maxR + 1) 0 false).2.count REvent.request = maxR + 1 ∧
        (executeWithRetry renv script (maxR + 1) 0 false).1 = Option.none)) := by
  refine ⟨run_cycle_count_le_one renv script (maxR + 1) 0, ?_, ?_, ?_, ?_⟩
  · intro hlog
    rcases renv with ⟨ae, un, pw, rc, lc⟩
    cases ae <;> cases un <;> cases rc <;> cases pw <;> cases lc <;>
      simp_all [reloginAndUpdateCookies]
  · intro hok
    rcases renv with ⟨ae, un, pw, rc, lc⟩
    cases ae <;> cases un <;> cases rc <;> cases pw <;> cases lc <;>
      simp_all [reloginAndUpdateCookies]
  · intro hfail
    exact run_cycle_fail_returns_expired renv script hfail (maxR + 1) 0
  · intro hsucc
    exact run_cycle_success_retries renv script hsucc (maxR + 1) 0

/-- A session-expired body: code 43001, message containing the expiry
substring. -/
def sessionExpiredData : RespData :=
  { errorCode := Option.some 43001, errorMsg := "会话已过期" }

/-- A normal (non-expired) body. -/
def okData : RespData :=
  { errorCode := Option.none, errorMsg := "" }

/-- Relogin environment in which the silent refresh succeeds. -/
def renvRefreshOk : ReloginEnv :=
  { accountExists := true, username := Option.some "user", password := Option.some "pass",
    refreshCookies := Option.some "ck2", loginCookies := Option.none }

/-- Attempt script: three retryable 503s, then a 200 whose body is
session-expired. -/
def scriptExpiredLast : Nat → AttemptResult := fun n =>
  if n < 3 then AttemptResult.http 503 else AttemptResult.ok (Option.some sessionExpiredData)

/-- Attempt script: a session-expired 200 first, then a normal 200. -/
def scriptExpiredFirst : Nat → AttemptResult := fun n =>
  if n = 0 then AttemptResult.ok (Option.some sessionExpiredData)
  else AttemptResult.ok (Option.some okData)

/-- C4 counterexample: with `max_retries = 3` (the default), three 503s
followed by a session-expired 200 make the refresh cycle succeed and
persist new cookies, yet the original request is never retried — the loop
is exhausted and the call returns `None`, not the retried result. -/
theorem refresh_success_without_retry :
    (executeWithRetry renvRefreshOk scriptExpiredLast 4 0 false).1 = Option.none ∧
    REvent.persistCookies "ck2" ∈ (executeWithRetry renvRefreshOk scriptExpiredLast 4 0 false).2 ∧
    REvent.request ∉
      eventsAfterReloginCycle (executeWithRetry renvRefreshOk scriptExpiredLast 4 0 false).2 := by
  decide

/-- Witness for `session_expiry_refresh_cycle`: expiry on the first
attempt; the cycle succeeds and the request is retried right after it. -/
theorem session_expiry_refresh_cycle_witness :
    REvent.request ∈
      eventsAfterReloginCycle (executeWithRetry renvRefreshOk scriptExpiredFirst 4 0 false).2 ∨
    ((executeWithRetry renvRefreshOk scriptExpiredFirst 4 0 false).2.count REvent.request = 4 ∧
      (executeWithRetry renvRefreshOk scriptExpiredFirst 4 0 false).1 = Option.none) := by
  exact (session_expiry_refresh_cycle renvRefreshOk scriptExpiredFirst 3).2.2.2.2
    (by decide) (by decide)

/-! ## C8: presence change (`SetStatusThread.run`, `ui/auto_reply_ui.py` and
`AccountMonitor.set_csstatus`, `Channel/pinduoduo/utils/API/Set_up_online.py`) -/

/-- Embeds `AccountMonitor.set_csstatus`: true iff the platform answered an
envelope with `success == True` (`None`/missing counts as failure). -/
def set_csstatus (resp : Option Bool) : Bool :=
  match resp with
  | Option.some s => s
  | Option.none => false

/-- Externally visible effects of one `SetStatusThread.run`. -/
inductive SEvent where
  | platformCall
  | dbWrite
deriving DecidableEq, Repr

/-- Outcome signalled by `SetStatusThread.run`. -/
inductive StatusOutcome where
  | success
  | failed (reason : String)
deriving DecidableEq, Repr

/-- Embeds `SetStatusThread.run`: platform call first; on platform failure emit
`status_set_failed` without touching the DB; only after platform success
write the status to the DB; a failed DB write is surfaced as
`status_set_failed` (degraded success). -/
def setStatusRun (cookiesPresent : Bool) (apiResp : Option Bool) (dbOk : Bool) :
    StatusOutcome × List SEvent :=
  if cookiesPresent = false then
    (StatusOutcome.failed "账号缺少cookies，无法设置状态", [])
  else if set_csstatus apiResp = false then
    (StatusOutcome.failed "平台状态设置失败", [SEvent.platformCall])
  else if dbOk then
    (StatusOutcome.success, [SEvent.platformCall, SEvent.dbWrite])
  else
    (StatusOutcome.failed "数据库状态更新失败", [SEvent.platformCall, SEvent.dbWrite])

/-- C8: the DB is written only after a successful platform call (and the
write appears after the call in the event order); a platform failure
leaves the store untouched and surfaces an error; a DB failure after
platform success is surfaced as an error; both successes yield success. -/
theorem presence_platform_before_store (cookiesPresent : Bool) (apiResp : Option Bool)
    (dbOk : Bool) :
    (SEvent.dbWrite ∈ (setStatusRun cookiesPresent apiResp dbOk).2 →
      set_csstatus apiResp = true ∧
      (setStatusRun cookiesPresent apiResp dbOk).2 = [SEvent.platformCall, SEvent.dbWrite]) ∧
    (cookiesPresent = true → set_csstatus apiResp = false →
      (setStatusRun cookiesPresent apiResp dbOk).2 = [SEvent.platformCall] ∧
      (setStatusRun cookiesPresent apiResp dbOk).1 =
        StatusOutcome.failed "平台状态设置失败") ∧
    (cookiesPresent = true → set_csstatus apiResp = true → dbOk = false →
      (setStatusRun cookiesPresent apiResp dbOk).1 =
        StatusOutcome.failed "数据库状态更新失败") ∧
    (cookiesPresent = true → set_csstatus apiResp = true → dbOk = true →
      (setStatusRun cookiesPresent apiResp dbOk).1 = StatusOutcome.success) := by
  rcases apiResp with _ | s
  · cases cookiesPresent <;> cases dbOk <;>
      simp [setStatusRun, set_csstatus]
  · cases cookiesPresent <;> cases s <;> cases dbOk <;>
      simp [setStatusRun, set_csstatus]

/-- Witness for `presence_platform_before_store`: platform succeeds, DB
write fails; the thread surfaces the storage failure. -/
theorem presence_platform_before_store_witness :
    (setStatusRun true (Option.some true) false).1 =
      StatusOutcome.failed "数据库状态更新失败" := by
  exact (presence_platform_before_store true (Option.some true) false).2.2.1 rfl rfl rfl

/-! ## C9: `CozeBot.reply` (`Agent/CozeAgent/bot.py`) -/

/-- Reply kinds from `bridge/reply.py` (the bot only produces TEXT). -/
inductive ReplyType where
  | text
  | image
  | imageUrl
  | videoUrl
  | file
  | link
deriving DecidableEq, Repr

/-- Embeds `bridge/reply.py` `Reply`. -/
structure Reply where
  rtype : ReplyType
  content : String
deriving DecidableEq, Repr

/-- One message of the Coze chat result (`type.value`,
`content_type.value`, `content`). -/
structure CozeMsg where
  msgType : String
  contentType : String
  content : String
deriving DecidableEq, Repr

/-- What the session store and the Coze service would answer during one
`reply` call: the stored conversation id, the result of
`create_conversation` (`None` = falsy/failure), whether
`conversations.messages.create` succeeds, and the message list of
`chat.create_and_poll` (`None` = the call raised / timed out). -/
structure CozeEnv where
  sessionConv : Option String
  createConv : Option String
  msgCreateOk : Bool
  chatMessages : Option (List CozeMsg)
deriving DecidableEq, Repr

/-- The loop body of `_create_message_and_get_reply`: first message with
`type == answer` and `content_type == text`. -/
def findAnswer (msgs : List CozeMsg) : Option CozeMsg :=
  msgs.find? fun m => m.msgType == "answer" && m.contentType == "text"

/-- Embeds `CozeBot._create_message_and_get_reply`: message creation or the
chat+poll raising yields the timeout sentinel; otherwise the first
answer/text message's content, or the no-reply sentinel. -/
def createMessageAndGetReply (env : CozeEnv) : Reply :=
  if env.msgCreateOk = false then Reply.mk ReplyType.text "请求处理超时"
  else
    match env.chatMessages with
    | Option.none => Reply.mk ReplyType.text "请求处理超时"
    | Option.some msgs =>
        match findAnswer msgs with
        | Option.some m => Reply.mk ReplyType.text m.content
        | Option.none => Reply.mk ReplyType.text "未能获取到回复"

/-- Embeds `CozeBot.reply`: look up the stored conversation; if absent create one
(sentinel on failure); then run `_create_message_and_get_reply`.  The
enclosing `try/except` turns any other exception into the
"消息处理失败" sentinel, so the Python method never raises. -/
def cozeReply (env : CozeEnv) : Reply :=
  match env.sessionConv with
  | Option.some _ => createMessageAndGetReply env
  | Option.none =>
      match env.createConv with
      | Option.none => Reply.mk ReplyType.text "会话创建失败"
      | Option.some _ => createMessageAndGetReply env

/-- C9: the adapter always yields a TEXT reply — a sentinel text when
conversation creation fails, when the agent is unreachable or times out,
or when no answer message of content type text is present; the successful
case carries the first answer's text. -/
theorem coze_reply_total (env : CozeEnv) :
    ((cozeReply env).rtype = ReplyType.text) ∧
    (env.sessionConv = Option.none → env.createConv = Option.none →
      cozeReply env = Reply.mk ReplyType.text "会话创建失败") ∧
    ((env.sessionConv ≠ Option.none ∨ env.createConv ≠ Option.none) →
      env.msgCreateOk = false ∨ env.chatMessages = Option.none →
      cozeReply env = Reply.mk ReplyType.text "请求处理超时") ∧
    (∀ msgs, (env.sessionConv ≠ Option.none ∨ env.createConv ≠ Option.none) →
      env.msgCreateOk = true → env.chatMessages = Option.some msgs →
      findAnswer msgs = Option.none →
      cozeReply env = Reply.mk ReplyType.text "未能获取到回复") ∧
    (∀ msgs m, (env.sessionConv ≠ Option.none ∨ env.createConv ≠ Option.none) →
      env.msgCreateOk = true → env.chatMessages = Option.some msgs →
      findAnswer msgs = Option.some m →
      cozeReply env = Reply.mk ReplyType.text m.content) := by
  rcases env with ⟨sc, cc, mo, cm⟩
  refine ⟨?_, ?_, ?_, ?_, ?_⟩
  · rcases sc with _ | s
    · rcases cc with _ | c
      · simp [cozeReply]
      · simp only [cozeReply, createMessageAndGetReply]
        cases mo
        · simp
        · rcases cm with _ | msgs
          · simp
          · simp only
            rcases hfa : findAnswer msgs with _ | m <;> simp [hfa]
    · simp only [cozeReply, createMessageAndGetReply]
      cases mo
      · simp
      · rcases cm with _ | msgs
        · simp
        · simp only
          rcases hfa : findAnswer msgs with _ | m <;> simp [hfa]
  · intro h1 h2
    subst h1; subst h2
    simp [cozeReply]
  · intro h1 h2
    rcases sc with _ | s
    · rcases cc with _ | c
      · simp at h1
      · rcases h2 with h2 | h2 <;>
          simp_all [cozeReply, createMessageAndGetReply]
    · rcases h2 with h2 | h2 <;>
        simp_all [cozeReply, createMessageAndGetReply]
  · intro msgs h1 h2 h3 h4
    rcases sc with _ | s
    · rcases cc with _ | c
      · simp at h1
      · simp_all [cozeReply, createMessageAndGetReply]
    · simp_all [cozeReply, createMessageAndGetReply]
  · intro msgs m h1 h2 h3 h4
    rcases sc with _ | s
    · rcases cc with _ | c
      · simp at h1
      · simp_all [cozeReply, createMessageAndGetReply]
    · simp_all [cozeReply, createMessageAndGetReply]

/-- Witness for `coze_reply_total`: a chat whose second message is the
answer text. -/
theorem coze_reply_total_witness :
    cozeReply
      { sessionConv := Option.some "conv1", createConv := Option.none,
        msgCreateOk := true,
        chatMessages := Option.some
          [⟨"verbose", "text", "thinking"⟩, ⟨"answer", "text", "您好!"⟩] } =
      Reply.mk ReplyType.text "您好!" := by
  exact (coze_reply_total
    { sessionConv := Option.some "conv1", createConv := Option.none,
      msgCreateOk := true,
      chatMessages := Option.some
        [⟨"verbose", "text", "thinking"⟩, ⟨"answer", "text", "您好!"⟩] }).2.2.2.2
    [⟨"verbose", "text", "thinking"⟩, ⟨"answer", "text", "您好!"⟩]
    ⟨"answer", "text", "您好!"⟩
    (Or.inl (by simp)) rfl rfl (by decide)

/-! ## C3: `UserSequentialProcessor` (`Message/message_consumer.py`)

`add_message` awaits `message_queue.put` (no yield for the unbounded
`asyncio.Queue`) and spawns a worker task only when `is_processing` is
false; the worker's first statement sets `is_processing = True`, then it
repeatedly takes one message and runs `_process_single_message` to
completion before the next take; a 30s idle timeout (possible only while
the inbox is empty) makes it break out, and the `finally` clears
`is_processing` when the task ends.  The small-step system below gives one
atomic label per code segment between await points; workers are anonymous
and counted by phase (`spawned` = task created but not yet run).
`added`/`taken` are ghost fields recording arrival order and
handler-chain start order.  Task cancellation (`stop()`) is outside the
model: it discards queued items and runs no handler. -/

/-- Per-user processor state. -/
structure ProcState where
  inbox : List Nat
  isProcessing : Bool
  spawned : Nat
  looping : Nat
  handling : List Nat
  exiting : Nat
  added : List Nat
  taken : List Nat
deriving DecidableEq, Repr

/-- One atomic segment of `add_message` / `_process_user_messages`. -/
inductive PLabel where
  | addMessage (m : Nat)
  | startWorker
  | takeMessage
  | finishMessage (i : Nat)
  | timeoutFire
  | exitWorker
deriving DecidableEq, Repr

/-- The transition function; `none` when the label is not enabled. -/
def pstep (s : ProcState) : PLabel → Option ProcState
  | PLabel.addMessage m =>
      Option.some { s with
        inbox := s.inbox ++ [m],
        added := s.added ++ [m],
        spawned := if s.isProcessing then s.spawned else s.spawned + 1 }
  | PLabel.startWorker =>
      match s.spawned with
      | 0 => Option.none
      | sp + 1 =>
          Option.some { s with spawned := sp, looping := s.looping + 1, isProcessing := true }
  | PLabel.takeMessage =>
      match s.looping, s.inbox with
      | lp + 1, m :: rest =>
          Option.some { s with
            looping := lp, inbox := rest,
            handling := s.handling ++ [m], taken := s.taken ++ [m] }
      | _, _ => Option.none
  | PLabel.finishMessage i =>
      if i < s.handling.length then
        Option.some { s with handling := s.handling.eraseIdx i, looping := s.looping + 1 }
      else Option.none
  | PLabel.timeoutFire =>
      match s.looping, s.inbox with
      | lp + 1, [] => Option.some { s with looping := lp, exiting := s.exiting + 1 }
      | _, _ => Option.none
  | PLabel.exitWorker =>
      match s.exiting with
      | 0 => Option.none
      | ex + 1 => Option.some { s with exiting := ex, isProcessing := false }

/-- A fresh processor (`UserSequentialProcessor.__init__`). -/
def initProcState : ProcState :=
  { inbox := [], isProcessing := false, spawned := 0, looping := 0,
    handling := [], exiting := 0, added := [], taken := [] }

/-- Run a trace of labels. -/
def prun (s : ProcState) : List PLabel → Option ProcState
  | [] => Option.some s
  | l :: ls =>
      match pstep s l with
      | Option.none => Option.none
      | Option.some s' => prun s' ls

/-- The cooperative-FIFO scheduling property the asyncio event loop
provides: a task created by `create_task` runs its first synchronous
segment (which sets `is_processing`) before any later `add_message`
segment runs, so no `add_message` ever executes while a spawned worker
has not yet started. -/
def coopOk (s : ProcState) : List PLabel → Bool
  | [] => true
  | l :: ls =>
      match pstep s l with
      | Option.none => false
      | Option.some s' =>
          (match l with
           | PLabel.addMessage _ => s.spawned == 0
           | _ => true) && coopOk s' ls

/-- Number of worker tasks that exist (created and not yet ended). -/
def workersAlive (s : ProcState) : Nat :=
  s.spawned + s.looping + s.handling.length + s.exiting

/-- Number of worker tasks past their first statement and not yet ended. -/
def workersStarted (s : ProcState) : Nat :=
  s.looping + s.handling.length + s.exiting

/-- The inductive invariant: at most one live worker, the
`is_processing` flag tracks exactly the started workers, and the ghost
order equation (arrivals = handler starts ++ still queued). -/
def ProcInv (s : ProcState) : Prop :=
  workersAlive s ≤ 1 ∧
  (s.isProcessing = true ↔ workersStarted s = 1) ∧
  s.added = s.taken ++ s.inbox

/-- One cooperative step preserves the invariant. -/
theorem pstep_preserves_inv (s s' : ProcState) (l : PLabel)
    (hinv : ProcInv s)
    (hcoop : ∀ m, l = PLabel.addMessage m → s.spawned = 0)
    (hstep : pstep s l = Option.some s') : ProcInv s' := by
  obtain ⟨halive, hflag, horder⟩ := hinv
  cases l with
  | addMessage m =>
      have hsp : s.spawned = 0 := hcoop m rfl
      simp only [pstep, Option.some.injEq] at hstep
      subst hstep
      by_cases hp : s.isProcessing = true
      · have h1 : workersStarted s = 1 := hflag.mp hp
        refine ⟨?_, ?_, ?_⟩
        · simp only [workersAlive, workersStarted] at halive h1 ⊢
          simp only [hp, if_true]
          omega
        · simp only [workersStarted] at h1 ⊢
          simp [hp, h1]
        · simp only [horder, List.append_assoc]
      · have hp' : s.isProcessing = false := by simpa using hp
        have h0 : workersStarted s ≠ 1 := fun hc => by
          rw [hp'] at hflag; simp at hflag; exact hflag hc
        refine ⟨?_, ?_, ?_⟩
        · simp only [workersAlive, workersStarted] at halive h0 ⊢
          simp only [hp', Bool.false_eq_true, if_false]
          omega
        · simp only [workersStarted] at h0 ⊢
          simp only [hp', Bool.false_eq_true, false_iff]
          simp only [workersAlive, workersStarted] at halive h0
          omega
        · simp only [horder, List.append_assoc]
  | startWorker =>
      rcases hs : s.spawned with _ | sp
      · simp [pstep, hs] at hstep
      · simp only [pstep, hs, Option.some.injEq] at hstep
        subst hstep
        have hstarted : workersStarted s = 0 := by
          simp only [workersAlive, workersStarted] at halive ⊢
          omega
        refine ⟨?_, ?_, ?_⟩
        · simp only [workersAlive, workersStarted] at halive hstarted ⊢
          omega
        · simp only [workersStarted] at hstarted ⊢
          constructor
          · intro _; omega
          · intro _; trivial
        · exact horder
  | takeMessage =>
      rcases hl : s.looping with _ | lp
      · simp [pstep, hl] at hstep
      · rcases hi : s.inbox with _ | ⟨m, rest⟩
        · simp [pstep, hl, hi] at hstep
        · simp only [pstep, hl, hi, Option.some.injEq] at hstep
          subst hstep
          refine ⟨?_, ?_, ?_⟩
          · simp only [workersAlive] at halive ⊢
            simp only [List.length_append, List.length_cons, List.length_nil]
            omega
          · simp only [workersStarted] at hflag ⊢
            simp only [List.length_append, List.length_cons, List.length_nil]
            rw [hl] at hflag
            constructor
            · intro h; have := hflag.mp h; omega
            · intro h; apply hflag.mpr; omega
          · rw [hi] at horder
            simp only [horder, List.append_assoc, List.cons_append, List.nil_append]
  | finishMessage i =>
      by_cases hi : i < s.handling.length
      · simp only [pstep, hi, if_pos, Option.some.injEq] at hstep
        subst hstep
        have herase : (s.handling.eraseIdx i).length = s.handling.length - 1 :=
          List.length_eraseIdx_of_lt hi
        refine ⟨?_, ?_, ?_⟩
        · simp only [workersAlive] at halive ⊢
          rw [herase]
          omega
        · simp only [workersStarted] at hflag ⊢
          rw [herase]
          constructor
          · intro h; have := hflag.mp h; omega
          · intro h; apply hflag.mpr; omega
        · exact horder
      · simp [pstep, hi] at hstep
  | timeoutFire =>
      rcases hl : s.looping with _ | lp
      · simp [pstep, hl] at hstep
      · rcases hi : s.inbox with _ | ⟨m, rest⟩
        · simp only [pstep, hl, hi, Option.some.injEq] at hstep
          subst hstep
          refine ⟨?_, ?_, ?_⟩
          · simp only [workersAlive] at halive ⊢
            omega
          · simp only [workersStarted] at hflag ⊢
            rw [hl] at hflag
            constructor
            · intro h; have := hflag.mp h; omega
            · intro h; apply hflag.mpr; omega
          · rw [hi] at horder
            simpa using horder
        · simp [pstep, hl, hi] at hstep
  | exitWorker =>
      rcases he : s.exiting with _ | ex
      · simp [pstep, he] at hstep
      · simp only [pstep, he, Option.some.injEq] at hstep
        subst hstep
        have hstarted : workersStarted s = 1 := by
          simp only [workersAlive, workersStarted] at halive ⊢
          omega
        refine ⟨?_, ?_, ?_⟩
        · simp only [workersAlive] at halive ⊢
          omega
        · simp only [workersStarted] at hstarted ⊢
          rw [he] at hstarted
          constructor
          · intro h; simp at h
          · intro h; omega
        · exact horder

/-- A cooperative run from an invariant state ends in an invariant state. -/
theorem prun_preserves_inv (tr : List PLabel) (s s' : ProcState)
    (hinv : ProcInv s) (hrun : prun s tr = Option.some s')
    (hcoop : coopOk s tr = true) : ProcInv s' := by
  induction tr generalizing s with
  | nil =>
      simp only [prun, Option.some.injEq] at hrun
      subst hrun
      exact hinv
  | cons l ls ih =>
      simp only [prun] at hrun
      simp only [coopOk] at hcoop
      rcases hstep : pstep s l with _ | s₁
      · rw [hstep] at hrun; cases hrun
      · rw [hstep] at hrun hcoop
        simp only [Bool.and_eq_true] at hcoop
        have hl : ∀ m, l = PLabel.addMessage m → s.spawned = 0 := by
          intro m hm
          subst hm
          simpa using hcoop.1
        exact ih s₁ (pstep_preserves_inv s s₁ l hinv hl hstep) hrun hcoop.2

/-- The initial processor satisfies the invariant. -/
theorem initProcState_inv : ProcInv initProcState := by
  refine ⟨?_, ?_, ?_⟩ <;> simp [initProcState, workersAlive, workersStarted, ProcInv]

/-- C3: under the asyncio cooperative-FIFO scheduling property (`coopOk`),
every reachable processor state has at most one handler-chain invocation
in flight; the handler-start order equals the arrival order (the taken
prefix plus the still-queued suffix reconstitutes the arrivals); and a
take — the start of the next handler chain — is enabled only when no
handler is running, i.e. only after the previous chain fully returned.
Applied to every prefix of a trace this bounds every instant of the run. -/
theorem user_serialization (tr : List PLabel) (s' : ProcState)
    (hrun : prun initProcState tr = Option.some s')
    (hcoop : coopOk initProcState tr = true) :
    s'.handling.length ≤ 1 ∧
    s'.added = s'.taken ++ s'.inbox ∧
    (0 < s'.looping → s'.handling = []) := by
  have hinv := prun_preserves_inv tr initProcState s' initProcState_inv hrun hcoop
  obtain ⟨halive, hflag, horder⟩ := hinv
  refine ⟨?_, horder, ?_⟩
  · simp only [workersAlive] at halive
    omega
  · intro hlp
    simp only [workersAlive] at halive
    have : s'.handling.length = 0 := by omega
    exact List.length_eq_zero.mp this

/-- A trace for the witness: two messages handled in order by one worker,
which then times out and exits. -/
def c3Trace : List PLabel :=
  [PLabel.addMessage 1, PLabel.startWorker, PLabel.takeMessage, PLabel.finishMessage 0,
   PLabel.addMessage 2, PLabel.takeMessage, PLabel.finishMessage 0,
   PLabel.timeoutFire, PLabel.exitWorker]

/-- Witness for `user_serialization` on the concrete trace `c3Trace`. -/
theorem user_serialization_witness :
    ({ inbox := [], isProcessing := false, spawned := 0, looping := 0,
       handling := [], exiting := 0, added := [1, 2], taken := [1, 2] } :
        ProcState).handling.length ≤ 1 ∧
    ({ inbox := [], isProcessing := false, spawned := 0, looping := 0,
       handling := [], exiting := 0, added := [1, 2], taken := [1, 2] } :
        ProcState).added =
      ({ inbox := [], isProcessing := false, spawned := 0, looping := 0,
         handling := [], exiting := 0, added := [1, 2], taken := [1, 2] } :
          ProcState).taken ++
        ({ inbox := [], isProcessing := false, spawned := 0, looping := 0,
           handling := [], exiting := 0, added := [1, 2], taken := [1, 2] } :
            ProcState).inbox ∧
    (0 < ({ inbox := [], isProcessing := false, spawned := 0, looping := 0,
            handling := [], exiting := 0, added := [1, 2], taken := [1, 2] } :
              ProcState).looping →
      ({ inbox := [], isProcessing := false, spawned := 0, looping := 0,
         handling := [], exiting := 0, added := [1, 2], taken := [1, 2] } :
          ProcState).handling = []) := by
  exact user_serialization c3Trace _ (by decide) (by decide)

/-- For contrast (not a claim): without the cooperative-FIFO property the
spawn check has a time-of-check/time-of-use window — two `add_message`
segments before either worker task starts create two workers, and both
can be inside the handler chain at once.  `coopOk` rejects this trace. -/
theorem race_reachable_without_fifo_start :
    ∃ s : ProcState,
      prun initProcState
        [PLabel.addMessage 1, PLabel.addMessage 2, PLabel.startWorker, PLabel.startWorker,
         PLabel.takeMessage, PLabel.takeMessage] = Option.some s ∧
      s.handling.length = 2 ∧
      coopOk initProcState
        [PLabel.addMessage 1, PLabel.addMessage 2, PLabel.startWorker, PLabel.startWorker,
         PLabel.takeMessage, PLabel.takeMessage] = false := by
  refine ⟨{ inbox := [], isProcessing := true, spawned := 0, looping := 0,
            handling := [1, 2], exiting := 0, added := [1, 2], taken := [1, 2] }, ?_, ?_, ?_⟩
  · decide
  · decide
  · decide

end CustomerAgent
